import Mathlib

/-!
Verification development for the ai-spy mobile app's job lifecycle
orchestrator.  The definitions below are shallow embeddings of the
JavaScript source files:

  * `ResultCacheService`        (unnamed/part_003)
  * `getCurrentUserId`          (Components/enhancedApiService.js)
  * `makeAuthenticatedRequest`  (Components/enhancedApiService.js)
  * `checkSubscriptionStatus`   (Components/enhancedApiService.js)
  * `submitEnhancedFileJob`     (Components/enhancedApiService.js)
  * `getEnhancedJobStatus`      (Components/enhancedApiService.js)
  * `submitAndMonitor`:s poll loop (Components/enhancedApiService.js)
  * `startPollingWithCaching`   (Components/audioProcessingService.js)
  * `Results` rendering tier rules (Components/Results.js)

Asynchronous JavaScript is embedded by explicit state passing: each
`await`:ed remote call becomes a parameter ("environment") that supplies
the outcome the call would have produced, and timer-driven loops become
folds over the list of tick outcomes.  Machine-level concerns (base64
transport decoding, JSON serialization) are treated as already performed;
the logic downstream of them is translated verbatim.
-/

namespace AiSpy

/-- A JavaScript runtime value, as far as the cache and status logic
inspects one: the code only ever asks `typeof v === 'object'` together
with truthiness, so we distinguish `null`, (truthy) objects tagged by an
identifier, and any other primitive value. -/
inductive JsVal where
  | vnull
  | vobj (id : Nat)
  | vprim
deriving DecidableEq, Repr

/-- `v && typeof v === 'object'` : the validity test the cache applies to
an analysis result. -/
def JsVal.isObj : JsVal → Bool
  | .vobj _ => true
  | _ => false

/-- JavaScript `opt || dflt` for a possibly absent string (an absent or
empty string falls back to the default, as `||` does on falsy values). -/
def jsOr (o : Option String) (dflt : String) : String :=
  match o with
  | some s => if s = "" then dflt else s
  | none => dflt

/-- JavaScript `a || b` for object-or-null values. -/
def jsOrOpt (a b : Option JsVal) : Option JsVal :=
  match a with
  | some v => some v
  | none => b

/-! ## Result Cache (`ResultCacheService`, unnamed/part_003)

The service stores at most one entry under the single AsyncStorage key
`completed_analysis_results`.  The persisted slot is either empty, holds
a parsable entry, or holds bytes that fail `JSON.parse` (corrupted). -/

/-- The JSON object `cacheResult` writes:
`{ jobId, result, transcriptionData, cachedAt, source, shown }`. -/
structure CacheData where
  jobId : String
  result : JsVal
  transcriptionData : JsVal
  cachedAt : Nat
  shown : Bool
deriving DecidableEq, Repr

/-- The persisted single-slot store. -/
inductive Slot where
  | empty
  | corrupted
  | entry (d : CacheData)
deriving DecidableEq, Repr

/-- `clearAllCache()` : removes the stored item unconditionally. -/
def clearAllCache (_ : Slot) : Slot := .empty

/-- `cacheResult(jobId, result, transcriptionData)` : clears the existing
cache first, then validates the result (`!result || typeof result !==
'object'` skips the write), then stores the new entry with
`shown: false`. -/
def cacheResult (jobId : String) (result : JsVal) (td : JsVal) (now : Nat)
    (s : Slot) : Slot :=
  let s1 := clearAllCache s
  if ¬ result.isObj then s1
  else .entry ⟨jobId, result, td, now, false⟩

/-- `getCachedResult()` : parses the stored entry; a parse failure or an
entry failing the structural check (`!cacheData.jobId || !cacheData.result
|| typeof cacheData.result !== 'object'`) clears the cache and yields
nothing.  Returns the (possibly cleared) slot and the read value. -/
def getCachedResult (s : Slot) : Slot × Option CacheData :=
  match s with
  | .empty => (.empty, none)
  | .corrupted => (.empty, none)
  | .entry d =>
    if d.jobId = "" ∨ ¬ d.result.isObj then (.empty, none)
    else (.entry d, some d)

/-- The record `getUnshownCompletedResults` returns per entry:
`{ jobId, result, transcriptionData, cachedAt }`. -/
structure UnshownEntry where
  jobId : String
  result : JsVal
  transcriptionData : JsVal
  cachedAt : Nat
deriving DecidableEq, Repr

/-- `getUnshownCompletedResults()` : reads the cached entry; if present
and not `shown`, re-checks the result structure and returns the entry in
a one-element array (clearing the cache instead when the re-check fails);
otherwise returns the empty array.  Note that it never writes the `shown`
flag. -/
def getUnshownCompletedResults (s : Slot) : Slot × List UnshownEntry :=
  let (s1, c) := getCachedResult s
  match c with
  | some d =>
    if ¬ d.shown then
      if d.result.isObj then
        (s1, [⟨d.jobId, d.result, d.transcriptionData, d.cachedAt⟩])
      else (clearAllCache s1, [])
    else (s1, [])
  | none => (s1, [])

/-- `markResultAsShown(jobId)` : if the cached entry matches the job id,
clears the cache (the entry has been viewed). -/
def markResultAsShown (jobId : String) (s : Slot) : Slot :=
  let (s1, c) := getCachedResult s
  match c with
  | some d => if d.jobId = jobId then clearAllCache s1 else s1
  | none => s1

/-! ## Credential payload decoding (`getCurrentUserId`, enhancedApiService.js)

The decoded bearer credential is `client_id|expiry|timestamp|signature`
(current format) or `client_id:expiry:timestamp:signature` (legacy format,
where the client id itself may contain colons).  We embed the payload as a
`List Char` (the base64 transport decoding is outside the parsing logic)
and translate the character-splitting faithfully: `splitCh` is JavaScript
`String.split` with a one-character separator. -/

/-- JavaScript `s.split(sep)` for a single-character separator. -/
def splitCh (c : Char) : List Char → List (List Char)
  | [] => [[]]
  | x :: xs =>
    if x = c then [] :: splitCh c xs
    else
      match splitCh c xs with
      | [] => [[x]]
      | h :: t => (x :: h) :: t

/-- JavaScript `parts.join(sep)` for a one-character separator. -/
def joinCh (c : Char) : List (List Char) → List Char
  | [] => []
  | [s] => s
  | s :: rest => s ++ c :: joinCh c rest

/-- JavaScript `parseInt` on the characters of a string: optional
whitespace, optional sign, then the leading run of decimal digits; `none`
models `NaN`. -/
def parseIntJS (s : List Char) : Option Int :=
  let core : List Char → Option Nat := fun cs =>
    let ds := cs.takeWhile Char.isDigit
    if ds = [] then none
    else some (ds.foldl (fun acc ch => acc * 10 + (ch.toNat - 48)) 0)
  match s.dropWhile (fun ch => ch = ' ') with
  | '-' :: rest => (core rest).map (fun n => -(n : Int))
  | '+' :: rest => (core rest).map (fun n => (n : Int))
  | other => (core other).map (fun n => (n : Int))

/-- `currentTime > parseInt(expiry)` : the expiry test in
`getCurrentUserId`; a non-numeric expiry gives `NaN`, and a comparison
with `NaN` is false, so the credential then counts as not expired. -/
def isExpired (expiry : List Char) (now : Int) : Bool :=
  match parseIntJS expiry with
  | none => false
  | some e => decide (now > e)

/-- The parsing core of `getCurrentUserId` (enhancedApiService.js lines
188-232), applied to the base64-decoded payload and the current Unix
time.  Pipe format: exactly 4 parts or `null`.  Colon format: at least 4
parts or `null`; the last three parts are signature, timestamp, expiry
(from the right) and the remaining leading parts joined with `:` form the
client id.  An expired credential gives `null`. -/
def decodeUserId (decoded : List Char) (currentTime : Int) :
    Option (List Char) :=
  if '|' ∈ decoded then
    match splitCh '|' decoded with
    | [clientId, expiry, _timestamp, _sig] =>
      if isExpired expiry currentTime then none else some clientId
    | _ => none
  else
    let parts := splitCh ':' decoded
    if parts.length < 4 then none
    else
      let expiry := parts.getD (parts.length - 3) []
      let clientId := joinCh ':' (parts.take (parts.length - 3))
      if isExpired expiry currentTime then none else some clientId

/-! ## Authenticated requests (`makeAuthenticatedRequest`, enhancedApiService.js)

Each fetch attempt is supplied by an environment `env : Nat → FetchOutcome`
indexed by the attempt number.  The function recurses with `retryCount + 1`
on a 401 (after clearing the stored token) while `retryCount < 2`, on a
5xx while `retryCount < 3`, and on a network error while `retryCount < 3`;
an abort (timeout) is not retried.  The base URL is HTTPS, so the
HTTPS-validation branch never fires and is not modelled. -/

/-- Outcome of one `fetch`: a response with a status code, a thrown
network error (`TypeError` / `Network request failed`), or an abort. -/
inductive FetchOutcome where
  | resp (status : Nat)
  | netErr
  | abortErr
deriving DecidableEq, Repr

/-- `response.ok` : status in the 2xx range. -/
def respOk (status : Nat) : Bool := 200 ≤ status && status < 300

/-- Decidable equality for `Except`, used by the concrete evaluations. -/
instance exceptDecEq {ε α : Type} [DecidableEq ε] [DecidableEq α] :
    DecidableEq (Except ε α) := fun a b =>
  match a, b with
  | .error e1, .error e2 =>
    if h : e1 = e2 then .isTrue (by rw [h])
    else .isFalse (by intro hc; cases hc; exact h rfl)
  | .error _, .ok _ => .isFalse (by intro hc; cases hc)
  | .ok _, .error _ => .isFalse (by intro hc; cases hc)
  | .ok v1, .ok v2 =>
    if h : v1 = v2 then .isTrue (by rw [h])
    else .isFalse (by intro hc; cases hc; exact h rfl)

/-- Observable outcome of `makeAuthenticatedRequest`: the returned
response status or the thrown error message, the number of fetch attempts
made, and the number of `clearAuthToken()` calls. -/
structure ReqRun where
  outcome : Except String Nat
  attempts : Nat
  clears : Nat
deriving DecidableEq, Repr

/-- `makeAuthenticatedRequest(url, options, retryCount)` over an attempt
environment.  `hasToken` models `getAuthToken()` succeeding; `attempts`
and `clears` are accumulators starting at 0.  The recursion depth is
bounded by the retry caps, so any `fuel ≥ 5` is never exhausted from the
initial call. -/
def makeAuthReq (hasToken : Bool) (env : Nat → FetchOutcome) :
    Nat → Nat → Nat → Nat → ReqRun
  | 0, _, attempts, clears => ⟨.error "out of fuel", attempts, clears⟩
  | fuel + 1, retryCount, attempts, clears =>
    if ¬ hasToken then
      ⟨.error "Authentication failed. Please restart the app and try again.",
        attempts, clears⟩
    else
      match env attempts with
      | .resp status =>
        if respOk status then ⟨.ok status, attempts + 1, clears⟩
        else if status = 401 ∧ retryCount < 2 then
          makeAuthReq hasToken env fuel (retryCount + 1) (attempts + 1)
            (clears + 1)
        else if 500 ≤ status ∧ retryCount < 3 then
          makeAuthReq hasToken env fuel (retryCount + 1) (attempts + 1) clears
        else
          ⟨.error ("HTTP error! status: " ++ toString status),
            attempts + 1, clears⟩
      | .netErr =>
        if retryCount < 3 then
          makeAuthReq hasToken env fuel (retryCount + 1) (attempts + 1) clears
        else
          ⟨.error "Network connection failed. Please check your internet connection and try again.",
            attempts + 1, clears⟩
      | .abortErr =>
        ⟨.error "Request timeout. Please check your internet connection and try again.",
          attempts + 1, clears⟩

/-! ## Subscription check (`checkSubscriptionStatus`, enhancedApiService.js) -/

/-- The response of the `/check-user-subscription` call, as consumed:
its status code and the `has_subscription` field of its JSON body. -/
structure SubResp where
  status : Nat
  hasSubscription : Bool
deriving DecidableEq, Repr

/-- `response.ok` for a subscription response. -/
def SubResp.okB (r : SubResp) : Bool := respOk r.status

/-- The object `checkSubscriptionStatus` resolves with. -/
structure SubStatus where
  has_subscription : Bool
  tier : String
  verificationMethod : String
  verified : Bool
deriving DecidableEq, Repr

/-- `checkSubscriptionStatus()` over the outcome of its authenticated
request (`.error` models the request throwing).  Every branch returns a
value — the function never raises: a thrown error or a non-ok response
falls back to the free tier. -/
def checkSubscriptionStatus (req : Except String SubResp) : SubStatus :=
  match req with
  | .error _ => ⟨false, "free", "error_fallback", false⟩
  | .ok resp =>
    if ¬ resp.okB then ⟨false, "free", "api_fallback", false⟩
    else
      ⟨resp.hasSubscription,
        if resp.hasSubscription then "pro" else "free",
        "api_check", true⟩

/-! ## File submission (`submitEnhancedFileJob`, enhancedApiService.js)

The signed-URL workflow: request an upload target, PUT the bytes to it,
then notify `/report`.  A failure of the *target request* — either a
thrown error or a non-ok response — falls back to the inline `/analyze`
endpoint, whose result is stored in `this.directResults` under a job id
`direct_<Date.now()>`.  Failures of the later steps are thrown (the outer
catch logs and rethrows unchanged). -/

/-- A remote HTTP response, as far as this workflow inspects one. -/
structure HttpResp where
  status : Nat
deriving DecidableEq, Repr

/-- `response.ok` for such a response. -/
def HttpResp.okB (r : HttpResp) : Bool := respOk r.status

/-- `this.directResults` : the map from synthesized `direct_` job ids to
inline analysis results. -/
def DirectStore := List (String × JsVal)

instance : DecidableEq DirectStore := by
  unfold DirectStore; exact inferInstance

/-- Lookup in `this.directResults` (`this.directResults[jobId]`). -/
def storeGet (store : DirectStore) (jid : String) : Option JsVal :=
  match store with
  | [] => none
  | (k, v) :: rest => if k = jid then some v else storeGet rest jid

/-- The synthesized pre-completed job id: `'direct_' + Date.now()`. -/
def mkDirectId (now : Nat) : String := "direct_" ++ toString now

/-- `jobId.startsWith('direct_')` (JavaScript `String.startsWith`). -/
def jsStartsWith (s p : String) : Bool := p.data.isPrefixOf s.data

/-- The outcomes of the remote calls a single `submitEnhancedFileJob`
execution can make, plus the payloads it extracts from them.  `.error`
models the corresponding call throwing. -/
structure FileSubmitEnv where
  urlReq : Except String HttpResp
  uploadResp : Except String HttpResp
  reportReq : Except String HttpResp
  analyzeReq : Except String HttpResp
  analyzeData : JsVal
  reportTaskId : String
  now : Nat
deriving DecidableEq, Repr

/-- The duplicated fallback block of `submitEnhancedFileJob`: POST the
file to `/analyze`, store the result under a fresh `direct_` id, and
return that id; an analyze failure is thrown. -/
def fallbackAnalyze (env : FileSubmitEnv) (store : DirectStore) :
    Except String (String × DirectStore) :=
  match env.analyzeReq with
  | .error e => .error e
  | .ok ar =>
    if ¬ ar.okB then .error "Analyze endpoint also failed"
    else
      let directJobId := mkDirectId env.now
      .ok (directJobId, (directJobId, env.analyzeData) :: store)

/-- `submitEnhancedFileJob(fileUri, fileName)` : returns the submitted
job id together with the updated `directResults` store, or the thrown
error. -/
def submitEnhancedFileJob (env : FileSubmitEnv) (store : DirectStore) :
    Except String (String × DirectStore) :=
  match env.urlReq with
  | .error _ => fallbackAnalyze env store
  | .ok uresp =>
    if ¬ uresp.okB then fallbackAnalyze env store
    else
      match env.uploadResp with
      | .error e => .error e
      | .ok up =>
        if ¬ up.okB then
          .error ("File upload failed: " ++ toString up.status)
        else
          match env.reportReq with
          | .error e => .error e
          | .ok rresp =>
            if ¬ rresp.okB then .error "Report creation failed"
            else .ok (env.reportTaskId, store)

/-! ## Job status (`getEnhancedJobStatus`, enhancedApiService.js) -/

/-- The body of a `/report-status/<jobId>` response, as consumed. -/
structure RemoteStatusData where
  status : String
  raw : JsVal
  transcriptionData : Option JsVal
  error : Option String
deriving DecidableEq, Repr

/-- The object `getEnhancedJobStatus` resolves with.  `usedNetwork`
records whether the remote status endpoint was contacted (the `direct_`
branch answers from `this.directResults` alone). -/
structure JobStatusResp where
  status : String
  result : Option JsVal
  transcriptionData : Option JsVal
  error : Option String
  progressMessage : String
  usedNetwork : Bool
deriving DecidableEq, Repr

/-- `getEnhancedJobStatus(jobId)` : a `direct_`-prefixed id is answered
locally — `completed` carrying the stored result when present, `failed`
when the stored result is missing; any other id queries the remote
status endpoint (whose outcome, including a thrown request error, is the
`remote` argument). -/
def getEnhancedJobStatus (jobId : String) (store : DirectStore)
    (remote : Except String RemoteStatusData) :
    Except String JobStatusResp :=
  if jsStartsWith jobId "direct_" then
    match storeGet store jobId with
    | some d =>
      .ok ⟨"completed", some d, none, none, "Analysis complete!", false⟩
    | none =>
      .ok ⟨"failed", none, none, some "Direct result not found",
        "Failed to retrieve result", false⟩
  else
    match remote with
    | .error e => .error e
    | .ok data =>
      .ok ⟨data.status,
        if data.status = "completed" then some data.raw else none,
        data.transcriptionData,
        data.error,
        if data.status = "pending" then "Processing in queue..."
        else if data.status = "completed" then "Analysis complete!"
        else "Processing...",
        true⟩

/-! ## The `submitAndMonitor` poll loop (enhancedApiService.js)

`monitorJob` is a self-rescheduling `setTimeout` loop: each tick queries
`getEnhancedJobStatus`, forwards the status to `onUpdate`, then either
terminates with `onComplete`/`onError` or schedules the next tick 2
seconds later; a thrown status query terminates with `onError`.  We run
it over the list of tick outcomes; ticks beyond a terminal one never
execute because no timer is scheduled after it. -/

/-- A callback invocation observed by the subscriber. -/
inductive MonitorEvent where
  | update (st : JobStatusResp)
  | complete (result : Option JsVal) (transcriptionData : Option JsVal)
  | error (msg : String)
deriving DecidableEq, Repr

/-- Is the event a terminal (`onComplete`/`onError`) callback? -/
def MonitorEvent.isTerminal : MonitorEvent → Bool
  | .update _ => false
  | .complete _ _ => true
  | .error _ => true

/-- The sequence of callback invocations `monitorJob` performs, given the
outcome of the status query at each tick it reaches. -/
def monitorRun : List (Except String JobStatusResp) → List MonitorEvent
  | [] => []
  | o :: rest =>
    match o with
    | .error e => [.error e]
    | .ok st =>
      .update st ::
        (if st.status = "completed" then
          [.complete st.result st.transcriptionData]
        else if st.status = "failed" then
          [.error (jsOr st.error "Job failed")]
        else monitorRun rest)

/-- Checker for the subscriber contract: every event except possibly the
last one is a non-terminal callback (so a terminal callback, once fired,
is the final one — at most one terminal callback occurs and nothing
follows it). -/
def terminalOnlyLast : List MonitorEvent → Bool
  | [] => true
  | [_] => true
  | e :: rest => !e.isTerminal && terminalOnlyLast rest

/-! ## The interval poll loop (`startPollingWithCaching`, audioProcessingService.js)

`startPollingWithCaching` registers a `setInterval` whose (async) handler
queries `getJobStatus` and then branches on the status: `completed` stops
the interval and calls `onComplete`, `failed` stops it and calls
`onError`, any other status does nothing (the next tick re-queries), and
a thrown query stops the interval and calls `onError` with the error
message.  This function performs no `onUpdate` calls.

Because the handler is asynchronous, an interval tick may fire while a
previous tick is still awaiting its status request; crucially, the code
after the `await` branches on the status alone and never re-checks
whether the interval is still registered.  We model this with an explicit
scheduler: a `fire` step is the interval firing (possible only while the
interval is registered) and starts a request whose eventual outcome is
attached to the step; a `resolve` step is an in-flight request resolving
and running the remainder of the handler. -/

/-- The parsed body of a `/neural/job_status/<jobId>` response, as the
polling handler consumes it. -/
structure PollStatus where
  status : String
  result : Option JsVal
  transcriptionData : Option JsVal
  error : Option String
deriving DecidableEq, Repr

/-- A callback invocation performed by the interval poll loop. -/
inductive PollEvent where
  | completeEv (result : Option JsVal) (transcriptionData : Option JsVal)
  | errorEv (msg : String)
deriving DecidableEq, Repr

/-- The status branch of the handler (the code after the `await`): the
terminal callback it performs, if any. -/
def handleStatus (st : PollStatus) : Option PollEvent :=
  if st.status = "completed" then
    some (.completeEv st.result st.transcriptionData)
  else if st.status = "failed" then
    some (.errorEv (jsOr st.error "Processing failed"))
  else none

/-- State of one monitored job: whether the interval is still registered
(`stopPolling` clears it), the outcomes of the in-flight status requests
in starting order, and the callback invocations so far. -/
structure PollState where
  active : Bool
  inflight : List (Except String PollStatus)
  events : List PollEvent
deriving DecidableEq, Repr

/-- Run the rest of the handler once its status request has resolved with
`o`.  Mirrors the source: the branches consult only the outcome — never
whether the interval is still registered. -/
def tickResolve (s : PollState) (o : Except String PollStatus) : PollState :=
  match o with
  | .error e =>
    { s with active := false, events := s.events ++ [.errorEv e] }
  | .ok st =>
    match handleStatus st with
    | some ev => { s with active := false, events := s.events ++ [ev] }
    | none => s

/-- One scheduler step: the interval fires (starting a request with the
given eventual outcome), or the `i`-th in-flight request resolves. -/
inductive SchedStep where
  | fire (o : Except String PollStatus)
  | resolve (i : Nat)

/-- Apply one scheduler step.  A `fire` is a no-op once the interval has
been cleared; a `resolve` of a nonexistent request is a no-op. -/
def schedStep (s : PollState) : SchedStep → PollState
  | .fire o => if s.active then { s with inflight := s.inflight ++ [o] } else s
  | .resolve i =>
    match s.inflight.get? i with
    | none => s
    | some o => tickResolve { s with inflight := s.inflight.eraseIdx i } o

/-- Run a schedule from a state. -/
def runSched (steps : List SchedStep) (s : PollState) : PollState :=
  steps.foldl schedStep s

/-- The state right after `startPollingWithCaching` registers the
interval. -/
def initPollState : PollState := ⟨true, [], []⟩

/-- The sequential schedule for a list of tick outcomes: each tick's
request resolves before the next tick fires (no overlap). -/
def seqSchedule (outcomes : List (Except String PollStatus)) :
    List SchedStep :=
  outcomes.flatMap (fun o => [.fire o, .resolve 0])

/-- The callback sequence of the poll loop under sequential ticks,
written directly as a recursion over the tick outcomes (the form used by
the per-claim statements). -/
def pollRun : List (Except String PollStatus) → List PollEvent
  | [] => []
  | o :: rest =>
    match o with
    | .error e => [.errorEv e]
    | .ok st =>
      match handleStatus st with
      | some ev => [ev]
      | none => pollRun rest

/-! ## Tier-dependent result rendering (`Results.js`)

The presentation layer's tier rules, read off the `Results` component:
`renderTranscription` shows the transcript only to subscribed users and
renders a "PRO" upsell placeholder instead for free users (independent of
whether transcript data exists); `renderTimelineGrid` shows the complete
processed timeline for both tiers; the summary (overall prediction and
aggregate confidence) is rendered unconditionally.  The numeric fallback
branches of `processedData` that recompute probabilities with floating
point are not modelled; the main `Results.chunk_results` format is. -/

/-- One element of `result.Results.chunk_results`, as consumed. -/
structure ChunkIn where
  chunk : Nat
  prediction : String
  confidence : JsVal
  probabilityAi : JsVal
deriving DecidableEq, Repr

/-- One element of the processed timeline. -/
structure ChunkOut where
  chunk : Nat
  prediction : String
  confidence : JsVal
  probabilityAi : JsVal
  timestamp : Nat
deriving DecidableEq, Repr

/-- The fields of the analysis result object that the rendering logic
reads. -/
structure AnalysisResultJs where
  overallPrediction : Option JsVal
  aggregateConfidence : Option JsVal
  chunkResults : List ChunkIn
  transcriptionData : Option JsVal
deriving DecidableEq, Repr

/-- The per-chunk mapping of `processedData`: lowercase the prediction
and derive the timestamp `(chunk - 1) * 3`. -/
def processChunk (c : ChunkIn) : ChunkOut :=
  ⟨c.chunk, c.prediction.toLower, c.confidence, c.probabilityAi,
    (c.chunk - 1) * 3⟩

/-- `processedData` timeline: every chunk, in order, no truncation. -/
def processedTimeline (r : AnalysisResultJs) : List ChunkOut :=
  r.chunkResults.map processChunk

/-- The tier-shaped view the `Results` screen delivers: the full
timeline, the overall summary, the transcript content actually shown
(`none` when the transcript section renders nothing or the upsell
placeholder), and whether the free-tier limitation placeholder is shown
in place of the transcript. -/
structure Deliverable where
  timeline : List ChunkOut
  summaryLabel : Option JsVal
  summaryConfidence : Option JsVal
  transcript : Option JsVal
  isLimited : Bool
deriving DecidableEq, Repr

/-- The tier shaping performed by `Results`: `combinedTranscriptionData`
is `transcriptionData || result.transcription_data`; the transcript is
shown only when the subscription state has loaded and the user is a pro
member; free users get the upsell placeholder (`isLimited`); the
timeline and summary are shown in full for both tiers. -/
def renderResults (result : AnalysisResultJs)
    (transcriptionData : Option JsVal) (isProMember : Bool)
    (isLoadingSubscription : Bool) : Deliverable :=
  let combined := jsOrOpt transcriptionData result.transcriptionData
  { timeline := processedTimeline result
    summaryLabel := result.overallPrediction
    summaryConfidence := result.aggregateConfidence
    transcript :=
      if isLoadingSubscription then none
      else if isProMember then combined
      else none
    isLimited := !isLoadingSubscription && !isProMember }

/-! ## Theorems -/

/-- C10: every `cacheResult` call evicts the previously cached entry
before validating the new result, so a `null` or non-object result leaves
the cache empty (the old entry is lost even though the write was
rejected), while a valid result is stored as the new sole entry with
`shown = false`. -/
theorem cache_put_clears_before_validate :
    (∀ (s : Slot) (jobId : String) (result td : JsVal) (now : Nat),
      result.isObj = false → cacheResult jobId result td now s = .empty)
    ∧ (∀ (s : Slot) (jobId : String) (result td : JsVal) (now : Nat),
      result.isObj = true →
      cacheResult jobId result td now s = .entry ⟨jobId, result, td, now, false⟩) := by
  constructor
  · intro s jobId result td now h
    simp [cacheResult, clearAllCache, h]
  · intro s jobId result td now h
    simp [cacheResult, clearAllCache, h]

/-- Witness for C10: caching `null` over an existing entry empties the
cache; caching an object stores it. -/
theorem cache_put_clears_before_validate_witness :
    cacheResult "jobA" JsVal.vnull JsVal.vnull 7
      (Slot.entry ⟨"old", JsVal.vobj 1, JsVal.vnull, 1, false⟩) = Slot.empty
    ∧ cacheResult "jobA" (JsVal.vobj 2) JsVal.vnull 7 Slot.empty =
      Slot.entry ⟨"jobA", JsVal.vobj 2, JsVal.vnull, 7, false⟩ :=
  ⟨cache_put_clears_before_validate.1 _ "jobA" _ _ 7 (by decide),
   cache_put_clears_before_validate.2 _ "jobA" _ _ 7 (by decide)⟩

/-- C2 counterexample: with one unshown entry cached and no intervening
put, a second `getUnshownCompletedResults` call returns the entry again —
not the empty list the claim predicts — because the read does not mark
the entry shown. -/
theorem cache_take_unshown_twice_cex :
    ((getUnshownCompletedResults
        (Slot.entry ⟨"job1", JsVal.vobj 0, JsVal.vnull, 5, false⟩)).2 =
      [⟨"job1", JsVal.vobj 0, JsVal.vnull, 5⟩])
    ∧ ((getUnshownCompletedResults
        ((getUnshownCompletedResults
          (Slot.entry ⟨"job1", JsVal.vobj 0, JsVal.vnull, 5, false⟩)).1)).2 =
      [⟨"job1", JsVal.vobj 0, JsVal.vnull, 5⟩]) := by decide

/-- C2 amended: `getUnshownCompletedResults` is a pure read — it returns
the unshown entry and leaves the cache unchanged, so an immediate second
call returns the same entry again; the entry stops being returned only
after the separate `markResultAsShown` call clears the slot.  Read and
mark are two operations, not one atomic step. -/
theorem cache_take_unshown_read_then_mark :
    ∀ d : CacheData, d.jobId ≠ "" → d.result.isObj = true → d.shown = false →
      (getUnshownCompletedResults (Slot.entry d)).2 =
        [⟨d.jobId, d.result, d.transcriptionData, d.cachedAt⟩]
      ∧ (getUnshownCompletedResults (Slot.entry d)).1 = Slot.entry d
      ∧ (getUnshownCompletedResults
          (markResultAsShown d.jobId (Slot.entry d))).2 = [] := by
  intro d h1 h2 h3
  refine ⟨?_, ?_, ?_⟩ <;>
    simp [getUnshownCompletedResults, getCachedResult, markResultAsShown,
      clearAllCache, h1, h2, h3]

/-- Witness for C2 (amended): a concrete unshown entry is returned with
the cache unchanged, and is no longer returned after
`markResultAsShown`. -/
theorem cache_take_unshown_read_then_mark_witness :
    (getUnshownCompletedResults
        (Slot.entry ⟨"jobW", JsVal.vobj 4, JsVal.vnull, 9, false⟩)).2 =
      [⟨"jobW", JsVal.vobj 4, JsVal.vnull, 9⟩]
    ∧ (getUnshownCompletedResults
        (Slot.entry ⟨"jobW", JsVal.vobj 4, JsVal.vnull, 9, false⟩)).1 =
      Slot.entry ⟨"jobW", JsVal.vobj 4, JsVal.vnull, 9, false⟩
    ∧ (getUnshownCompletedResults
        (markResultAsShown "jobW"
          (Slot.entry ⟨"jobW", JsVal.vobj 4, JsVal.vnull, 9, false⟩))).2 = [] :=
  cache_take_unshown_read_then_mark ⟨"jobW", JsVal.vobj 4, JsVal.vnull, 9, false⟩
    (by decide) (by decide) (by decide)

/-- C9: the subscription check fails closed — a thrown request or a
non-2xx response yields the free tier, unverified, with
`has_subscription = false`; and the pro tier can only be reported for an
ok response whose body affirms the subscription.  (The function is total
over every request outcome: it never raises.) -/
theorem subscription_check_fails_closed :
    (∀ e : String, checkSubscriptionStatus (.error e) =
      ⟨false, "free", "error_fallback", false⟩)
    ∧ (∀ resp : SubResp, resp.okB = false →
      checkSubscriptionStatus (.ok resp) = ⟨false, "free", "api_fallback", false⟩)
    ∧ (∀ req : Except String SubResp,
      (checkSubscriptionStatus req).tier = "pro" →
      ∃ resp, req = .ok resp ∧ resp.okB = true ∧ resp.hasSubscription = true) := by
  refine ⟨fun e => rfl, ?_, ?_⟩
  · intro resp h
    simp [checkSubscriptionStatus, h]
  · intro req h
    match req with
    | .error e =>
      simp [checkSubscriptionStatus] at h
    | .ok resp =>
      by_cases hok : resp.okB
      · by_cases hs : resp.hasSubscription
        · exact ⟨resp, rfl, hok, hs⟩
        · simp [checkSubscriptionStatus, hok, hs] at h
      · simp [checkSubscriptionStatus, hok] at h

/-- Witness for C9: a thrown check, a 500 response, and an affirmative
200 response, each at concrete values. -/
theorem subscription_check_fails_closed_witness :
    checkSubscriptionStatus (.error "boom") =
      ⟨false, "free", "error_fallback", false⟩
    ∧ checkSubscriptionStatus (.ok ⟨500, true⟩) =
      ⟨false, "free", "api_fallback", false⟩
    ∧ (∃ resp, (Except.ok (⟨200, true⟩ : SubResp) : Except String SubResp) =
        .ok resp ∧ resp.okB = true ∧ resp.hasSubscription = true) :=
  ⟨subscription_check_fails_closed.1 "boom",
   subscription_check_fails_closed.2.1 ⟨500, true⟩ (by decide),
   subscription_check_fails_closed.2.2 (.ok ⟨200, true⟩) (by decide)⟩

/-- C7: for tier FREE (subscription loaded, not a pro member) the
delivered view has no transcript — even when the input carries one — and
is marked limited, while still exposing the full processed chunk timeline
and the overall label/confidence summary; for tier PRO the transcript,
timeline and summary pass through unchanged and the view is not
limited. -/
theorem tier_shaping_free_and_pro :
    (∀ (result : AnalysisResultJs) (td : Option JsVal),
      (renderResults result td false false).transcript = none
      ∧ (renderResults result td false false).isLimited = true
      ∧ (renderResults result td false false).timeline = processedTimeline result
      ∧ (renderResults result td false false).timeline.length =
          result.chunkResults.length
      ∧ (renderResults result td false false).summaryLabel =
          result.overallPrediction
      ∧ (renderResults result td false false).summaryConfidence =
          result.aggregateConfidence)
    ∧ (∀ (result : AnalysisResultJs) (v : JsVal),
      (renderResults result (some v) false false).transcript = none)
    ∧ (∀ (result : AnalysisResultJs) (td : Option JsVal),
      (renderResults result td true false).transcript =
          jsOrOpt td result.transcriptionData
      ∧ (renderResults result td true false).isLimited = false
      ∧ (renderResults result td true false).timeline = processedTimeline result
      ∧ (renderResults result td true false).summaryLabel =
          result.overallPrediction
      ∧ (renderResults result td true false).summaryConfidence =
          result.aggregateConfidence) := by
  refine ⟨?_, ?_, ?_⟩ <;> intros <;>
    simp [renderResults, processedTimeline]

/-- C3 counterexample: a single poll-request error terminates monitoring
immediately — `onError` fires with the error message, polling stops, and
a completed status available at the very next tick is never observed.
The claimed behavior (survive one error, fail only after three
consecutive errors) does not hold at this input. -/
theorem poll_single_error_terminates_cex :
    pollRun [.error "Network request failed",
             .ok ⟨"completed", some (JsVal.vobj 2), none, none⟩]
      = [.errorEv "Network request failed"]
    ∧ PollEvent.completeEv (some (JsVal.vobj 2)) none ∉
        pollRun [.error "Network request failed",
                 .ok ⟨"completed", some (JsVal.vobj 2), none, none⟩] := by
  decide

/-- C3 amended: the first poll-request error terminates monitoring at
once — the monitor stops polling and fires `onError` with that error's
message, and no later tick runs; there is no three-consecutive-errors
threshold.  This holds for both poll loops (`startPollingWithCaching`
and the `submitAndMonitor` loop). -/
theorem poll_first_error_terminates :
    (∀ (e : String) (rest : List (Except String PollStatus)),
      pollRun (.error e :: rest) = [.errorEv e])
    ∧ (∀ (e : String) (rest : List (Except String JobStatusResp)),
      monitorRun (.error e :: rest) = [.error e]) :=
  ⟨fun _ _ => rfl, fun _ _ => rfl⟩

/-- C8 counterexample: with every attempt answered by 401, the original
call is retried twice (three fetch attempts, two credential clears), not
the claimed single one-shot retry (which would give two attempts). -/
theorem auth_401_single_retry_cex :
    makeAuthReq true (fun _ => .resp 401) 10 0 0 0 =
      ⟨.error "HTTP error! status: 401", 3, 2⟩
    ∧ (makeAuthReq true (fun _ => .resp 401) 10 0 0 0).attempts ≠ 2 := by
  decide

/-- C8 amended: a 401 response clears the cached credential and retries
the original call, but up to two times (`retryCount < 2`), not exactly
once: three consecutive 401s make three attempts with two clears before
the 401 surfaces as an error, while a 401 followed by a success completes
after the single clear-and-retry. -/
theorem auth_401_clears_and_retries_twice :
    (∀ env : Nat → FetchOutcome,
      env 0 = .resp 401 → env 1 = .resp 401 → env 2 = .resp 401 →
      makeAuthReq true env 10 0 0 0 = ⟨.error "HTTP error! status: 401", 3, 2⟩)
    ∧ (∀ env : Nat → FetchOutcome,
      env 0 = .resp 401 → env 1 = .resp 200 →
      makeAuthReq true env 10 0 0 0 = ⟨.ok 200, 2, 1⟩) := by
  constructor
  · intro env h0 h1 h2
    simp [makeAuthReq, h0, h1, h2, respOk]
    decide
  · intro env h0 h1
    simp [makeAuthReq, h0, h1, respOk]

/-- Witness for C8 (amended): concrete environments of three 401s and of
a 401 followed by a 200. -/
theorem auth_401_clears_and_retries_twice_witness :
    makeAuthReq true (fun n => if n ≤ 2 then .resp 401 else .resp 200) 10 0 0 0 =
      ⟨.error "HTTP error! status: 401", 3, 2⟩
    ∧ makeAuthReq true (fun n => if n = 0 then .resp 401 else .resp 200) 10 0 0 0 =
      ⟨.ok 200, 2, 1⟩ :=
  ⟨auth_401_clears_and_retries_twice.1 _ (by decide) (by decide) (by decide),
   auth_401_clears_and_retries_twice.2 _ (by decide) (by decide)⟩

/-- C5 counterexample: when the upload-target request succeeds but the
transfer of the bytes to the target fails (for instance a 403 on a PUT
after the signed URL expired), `submitEnhancedFileJob` raises a fatal
`File upload failed` error — it does not fall back to inline
submission. -/
theorem upload_transfer_failure_fatal_cex :
    submitEnhancedFileJob
      ⟨.ok ⟨200⟩, .ok ⟨403⟩, .ok ⟨200⟩, .ok ⟨200⟩, JsVal.vobj 7, "task1", 42⟩ [] =
      .error "File upload failed: 403" := by
  decide

/-- C5 amended: only a failure of the upload-target request — a thrown
request or a non-2xx response — triggers the fallback to direct inline
submission; a failed transfer to the obtained target (for example a
write after the target's validity window) raises a fatal
`File upload failed` error with no fallback. -/
theorem upload_fallback_only_for_target_request :
    (∀ (env : FileSubmitEnv) (store : DirectStore) (e : String) (ar : HttpResp),
      env.urlReq = .error e → env.analyzeReq = .ok ar → ar.okB = true →
      submitEnhancedFileJob env store =
        .ok (mkDirectId env.now, (mkDirectId env.now, env.analyzeData) :: store))
    ∧ (∀ (env : FileSubmitEnv) (store : DirectStore) (r ar : HttpResp),
      env.urlReq = .ok r → r.okB = false →
      env.analyzeReq = .ok ar → ar.okB = true →
      submitEnhancedFileJob env store =
        .ok (mkDirectId env.now, (mkDirectId env.now, env.analyzeData) :: store))
    ∧ (∀ (env : FileSubmitEnv) (store : DirectStore) (r u : HttpResp),
      env.urlReq = .ok r → r.okB = true →
      env.uploadResp = .ok u → u.okB = false →
      submitEnhancedFileJob env store =
        .error ("File upload failed: " ++ toString u.status)) := by
  refine ⟨?_, ?_, ?_⟩
  · intro env store e ar hu ha hok
    simp [submitEnhancedFileJob, fallbackAnalyze, hu, ha, hok]
  · intro env store r ar hu hr ha hok
    simp [submitEnhancedFileJob, fallbackAnalyze, hu, hr, ha, hok]
  · intro env store r u hu hr hup hok
    simp [submitEnhancedFileJob, hu, hr, hup, hok]

/-- Witness for C5 (amended): a thrown target request falls back, a 500
target response falls back, and a 410 transfer response is fatal, each
at concrete environments. -/
theorem upload_fallback_only_for_target_request_witness :
    submitEnhancedFileJob
        ⟨.error "net down", .ok ⟨200⟩, .ok ⟨200⟩, .ok ⟨200⟩, JsVal.vobj 3, "t1", 11⟩ [] =
      .ok (mkDirectId 11, [(mkDirectId 11, JsVal.vobj 3)])
    ∧ submitEnhancedFileJob
        ⟨.ok ⟨500⟩, .ok ⟨200⟩, .ok ⟨200⟩, .ok ⟨200⟩, JsVal.vobj 4, "t2", 12⟩ [] =
      .ok (mkDirectId 12, [(mkDirectId 12, JsVal.vobj 4)])
    ∧ submitEnhancedFileJob
        ⟨.ok ⟨200⟩, .ok ⟨410⟩, .ok ⟨200⟩, .ok ⟨200⟩, JsVal.vobj 5, "t3", 13⟩ [] =
      .error ("File upload failed: " ++ toString 410) :=
  ⟨upload_fallback_only_for_target_request.1 _ [] "net down" ⟨200⟩ rfl rfl (by decide),
   upload_fallback_only_for_target_request.2.1 _ [] ⟨500⟩ ⟨200⟩ rfl (by decide) rfl (by decide),
   upload_fallback_only_for_target_request.2.2 _ [] ⟨200⟩ ⟨410⟩ rfl (by decide) rfl (by decide)⟩

/-- A list is a `isPrefixOf` itself followed by anything. -/
theorem isPrefixOf_self_append (l1 l2 : List Char) :
    l1.isPrefixOf (l1 ++ l2) = true := by
  induction l1 with
  | nil => simp [List.isPrefixOf]
  | cons a as ih => simp [List.isPrefixOf, ih]

/-- Every synthesized id starts with `direct_`. -/
theorem jsStartsWith_mkDirectId (now : Nat) :
    jsStartsWith (mkDirectId now) "direct_" = true := by
  show ("direct_".data.isPrefixOf (mkDirectId now).data) = true
  have hdata : (mkDirectId now).data = "direct_".data ++ (toString now).data :=
    String.data_append _ _
  rw [hdata]
  exact isPrefixOf_self_append _ _

/-- C4: a successful `submitEnhancedFileJob` yields either the remote
report's task id (a pollable id, store untouched) or a synthesized
`direct_`-prefixed id whose analysis result is stored in `directResults`;
a status query for a `direct_` id with a stored result answers
`completed` carrying that result without contacting the remote status
endpoint; and the monitor loop fed that first status fires `onUpdate`
then `onComplete` and consumes no further tick — no poll timer is ever
scheduled. -/
theorem submit_direct_precompleted :
    (∀ (env : FileSubmitEnv) (store : DirectStore) (jid : String)
        (st2 : DirectStore),
      submitEnhancedFileJob env store = .ok (jid, st2) →
      (jid = env.reportTaskId ∧ st2 = store) ∨
      (jsStartsWith jid "direct_" = true ∧ storeGet st2 jid = some env.analyzeData))
    ∧ (∀ (jid : String) (store : DirectStore) (d : JsVal)
        (remote : Except String RemoteStatusData),
      jsStartsWith jid "direct_" = true → storeGet store jid = some d →
      getEnhancedJobStatus jid store remote =
        .ok ⟨"completed", some d, none, none, "Analysis complete!", false⟩)
    ∧ (∀ (jid : String) (store : DirectStore) (d : JsVal)
        (remote : Except String RemoteStatusData)
        (rest : List (Except String JobStatusResp)),
      jsStartsWith jid "direct_" = true → storeGet store jid = some d →
      monitorRun (getEnhancedJobStatus jid store remote :: rest) =
        [.update ⟨"completed", some d, none, none, "Analysis complete!", false⟩,
         .complete (some d) none]) := by
  have hstatus : ∀ (jid : String) (store : DirectStore) (d : JsVal)
      (remote : Except String RemoteStatusData),
      jsStartsWith jid "direct_" = true → storeGet store jid = some d →
      getEnhancedJobStatus jid store remote =
        .ok ⟨"completed", some d, none, none, "Analysis complete!", false⟩ := by
    intro jid store d remote hpre hget
    simp [getEnhancedJobStatus, hpre, hget]
  refine ⟨?_, hstatus, ?_⟩
  · intro env store jid st2 h
    match hu : env.urlReq with
    | .error e =>
      match ha : env.analyzeReq with
      | .error e2 =>
        simp [submitEnhancedFileJob, fallbackAnalyze, hu, ha] at h
      | .ok ar =>
        by_cases hok : ar.okB
        · simp [submitEnhancedFileJob, fallbackAnalyze, hu, ha, hok] at h
          obtain ⟨h1, h2⟩ := h
          subst h1; subst h2
          refine Or.inr ⟨jsStartsWith_mkDirectId env.now, ?_⟩
          simp [storeGet]
        · simp [submitEnhancedFileJob, fallbackAnalyze, hu, ha, hok] at h
    | .ok uresp =>
      by_cases huok : uresp.okB
      · match hup : env.uploadResp with
        | .error e2 =>
          simp [submitEnhancedFileJob, hu, huok, hup] at h
        | .ok up =>
          by_cases hupok : up.okB
          · match hr : env.reportReq with
            | .error e3 =>
              simp [submitEnhancedFileJob, hu, huok, hup, hupok, hr] at h
            | .ok rresp =>
              by_cases hrok : rresp.okB
              · simp [submitEnhancedFileJob, hu, huok, hup, hupok, hr, hrok] at h
                obtain ⟨h1, h2⟩ := h
                subst h1; subst h2
                exact Or.inl ⟨rfl, rfl⟩
              · simp [submitEnhancedFileJob, hu, huok, hup, hupok, hr, hrok] at h
          · simp [submitEnhancedFileJob, hu, huok, hup, hupok] at h
      · match ha : env.analyzeReq with
        | .error e2 =>
          simp [submitEnhancedFileJob, fallbackAnalyze, hu, huok, ha] at h
        | .ok ar =>
          by_cases hok : ar.okB
          · simp [submitEnhancedFileJob, fallbackAnalyze, hu, huok, ha, hok] at h
            obtain ⟨h1, h2⟩ := h
            subst h1; subst h2
            refine Or.inr ⟨jsStartsWith_mkDirectId env.now, ?_⟩
            simp [storeGet]
          · simp [submitEnhancedFileJob, fallbackAnalyze, hu, huok, ha, hok] at h
  · intro jid store d remote rest hpre hget
    rw [hstatus jid store d remote hpre hget]
    simp [monitorRun]

/-- Witness for C4: a concrete fallback submission yields a
`direct_`-prefixed id whose first status query reports `completed` with
the stored result and whose monitor run terminates at the first tick. -/
theorem submit_direct_precompleted_witness :
    ((mkDirectId 99 = ("t" : String) ∧
        ([(mkDirectId 99, JsVal.vobj 3)] : DirectStore) = []) ∨
      (jsStartsWith (mkDirectId 99) "direct_" = true ∧
        storeGet [(mkDirectId 99, JsVal.vobj 3)] (mkDirectId 99) =
          some (JsVal.vobj 3)))
    ∧ getEnhancedJobStatus (mkDirectId 99) [(mkDirectId 99, JsVal.vobj 3)]
        (.error "unreachable") =
      .ok ⟨"completed", some (JsVal.vobj 3), none, none, "Analysis complete!", false⟩
    ∧ monitorRun (getEnhancedJobStatus (mkDirectId 99)
          [(mkDirectId 99, JsVal.vobj 3)] (.error "unreachable") ::
          [.ok ⟨"pending", none, none, none, "Processing in queue...", true⟩]) =
      [.update ⟨"completed", some (JsVal.vobj 3), none, none,
          "Analysis complete!", false⟩,
        .complete (some (JsVal.vobj 3)) none] :=
  ⟨submit_direct_precompleted.1
      ⟨.error "boom", .ok ⟨200⟩, .ok ⟨200⟩, .ok ⟨200⟩, JsVal.vobj 3, "t", 99⟩
      [] (mkDirectId 99) [(mkDirectId 99, JsVal.vobj 3)] (by decide),
   submit_direct_precompleted.2.1 (mkDirectId 99) [(mkDirectId 99, JsVal.vobj 3)]
      (JsVal.vobj 3) (.error "unreachable") (by decide) (by decide),
   submit_direct_precompleted.2.2 (mkDirectId 99) [(mkDirectId 99, JsVal.vobj 3)]
      (JsVal.vobj 3) (.error "unreachable") _ (by decide) (by decide)⟩

/-- Under the sequential schedule the interval handler never overlaps
itself: every step leaves no request in flight, and once a terminal
callback has fired the interval is cleared, so the callback count never
exceeds one beyond the starting state. -/
theorem runSched_seq_events_le (outcomes : List (Except String PollStatus)) :
    ∀ s : PollState, s.inflight = [] →
      (runSched (seqSchedule outcomes) s).events.length ≤
        s.events.length + (if s.active then 1 else 0) := by
  induction outcomes with
  | nil =>
    intro s _
    simp [seqSchedule, runSched]
  | cons o rest ih =>
    rintro ⟨sa, si, se⟩ hs
    obtain rfl : si = [] := hs
    have hstep : runSched (seqSchedule (o :: rest)) ⟨sa, [], se⟩ =
        runSched (seqSchedule rest)
          (schedStep (schedStep ⟨sa, [], se⟩ (.fire o)) (.resolve 0)) := by
      simp [seqSchedule, runSched]
    rw [hstep]
    cases sa with
    | true =>
      have hfire : schedStep (⟨true, [], se⟩ : PollState) (.fire o) =
          ⟨true, [o], se⟩ := by
        simp [schedStep]
      have hres : schedStep (⟨true, [o], se⟩ : PollState) (.resolve 0) =
          tickResolve ⟨true, [], se⟩ o := by
        simp [schedStep]
      rw [hfire, hres]
      cases o with
      | error e =>
        have hr : tickResolve (⟨true, [], se⟩ : PollState) (.error e) =
            ⟨false, [], se ++ [.errorEv e]⟩ := rfl
        rw [hr]
        have h2 := ih ⟨false, [], se ++ [.errorEv e]⟩ rfl
        simpa using h2
      | ok st =>
        cases hst : handleStatus st with
        | some ev =>
          have hr : tickResolve (⟨true, [], se⟩ : PollState) (.ok st) =
              ⟨false, [], se ++ [ev]⟩ := by
            simp [tickResolve, hst]
          rw [hr]
          have h2 := ih ⟨false, [], se ++ [ev]⟩ rfl
          simpa using h2
        | none =>
          have hr : tickResolve (⟨true, [], se⟩ : PollState) (.ok st) =
              ⟨true, [], se⟩ := by
            simp [tickResolve, hst]
          rw [hr]
          have h2 := ih ⟨true, [], se⟩ rfl
          simpa using h2
    | false =>
      have hfire : schedStep (⟨false, [], se⟩ : PollState) (.fire o) =
          ⟨false, [], se⟩ := by
        simp [schedStep]
      have hres : schedStep (⟨false, [], se⟩ : PollState) (.resolve 0) =
          ⟨false, [], se⟩ := by
        simp [schedStep]
      rw [hfire, hres]
      have h2 := ih ⟨false, [], se⟩ rfl
      simpa using h2

/-- C1 counterexample: two interval ticks fire while the first one's
status request is still in flight; both requests resolve with
`completed`, and because the handler after the `await` never re-checks
whether polling is still active, `onComplete` fires twice for the same
job — the terminal callback is not exactly-once under this
interleaving. -/
theorem poll_overlapping_ticks_double_complete_cex :
    (runSched
        [.fire (.ok ⟨"completed", some (JsVal.vobj 1), none, none⟩),
         .fire (.ok ⟨"completed", some (JsVal.vobj 1), none, none⟩),
         .resolve 0, .resolve 0] initPollState).events =
      [.completeEv (some (JsVal.vobj 1)) none,
       .completeEv (some (JsVal.vobj 1)) none]
    ∧ ¬ ((runSched
        [.fire (.ok ⟨"completed", some (JsVal.vobj 1), none, none⟩),
         .fire (.ok ⟨"completed", some (JsVal.vobj 1), none, none⟩),
         .resolve 0, .resolve 0] initPollState).events.length ≤ 1) := by
  decide

/-- C1 amended: provided poll ticks do not overlap — each tick's status
request resolves before the next tick fires (the sequential schedule) —
the interval poll loop fires at most one terminal callback in total and
stops polling with it, and the `submitAndMonitor` loop fires `onUpdate`s
followed by at most one terminal callback with nothing after it.  With
overlapping in-flight ticks the guarantee fails (see the
counterexample). -/
theorem poll_terminal_callback_at_most_once_seq :
    (∀ outcomes : List (Except String PollStatus),
      (runSched (seqSchedule outcomes) initPollState).events.length ≤ 1)
    ∧ (∀ outcomes : List (Except String PollStatus),
      (pollRun outcomes).length ≤ 1)
    ∧ (∀ ticks : List (Except String JobStatusResp),
      terminalOnlyLast (monitorRun ticks) = true)
    ∧ (∀ ticks : List (Except String JobStatusResp),
      ((monitorRun ticks).filter MonitorEvent.isTerminal).length ≤ 1) := by
  refine ⟨?_, ?_, ?_, ?_⟩
  · intro outcomes
    simpa using runSched_seq_events_le outcomes initPollState rfl
  · intro outcomes
    induction outcomes with
    | nil => simp [pollRun]
    | cons o rest ih =>
      match o with
      | .error e => simp [pollRun]
      | .ok st =>
        match hst : handleStatus st with
        | some ev => simp [pollRun, hst]
        | none => simpa [pollRun, hst] using ih
  · intro ticks
    induction ticks with
    | nil => rfl
    | cons o rest ih =>
      match o with
      | .error e => rfl
      | .ok st =>
        by_cases hc : st.status = "completed"
        · simp [monitorRun, hc, terminalOnlyLast, MonitorEvent.isTerminal]
        · by_cases hf : st.status = "failed"
          · simp [monitorRun, hc, hf, terminalOnlyLast, MonitorEvent.isTerminal]
          · simp only [monitorRun, hc, hf, if_false]
            match hm : monitorRun rest with
            | [] => simp [terminalOnlyLast]
            | ev :: evs =>
              have := ih
              rw [hm] at this
              simpa [terminalOnlyLast, MonitorEvent.isTerminal] using this
  · intro ticks
    induction ticks with
    | nil => simp [monitorRun]
    | cons o rest ih =>
      match o with
      | .error e => simp [monitorRun, MonitorEvent.isTerminal]
      | .ok st =>
        by_cases hc : st.status = "completed"
        · simp [monitorRun, hc, MonitorEvent.isTerminal]
        · by_cases hf : st.status = "failed"
          · simp [monitorRun, hc, hf, MonitorEvent.isTerminal]
          · simpa [monitorRun, hc, hf, MonitorEvent.isTerminal] using ih

/-- `splitCh` never returns the empty list of fields. -/
theorem splitCh_ne_nil (c : Char) (s : List Char) : splitCh c s ≠ [] := by
  induction s with
  | nil => simp [splitCh]
  | cons x xs ih =>
    by_cases hx : x = c
    · simp [splitCh, hx]
    · simp only [splitCh, if_neg hx]
      cases h : splitCh c xs with
      | nil => simp
      | cons hd tl => simp

/-- Splitting a separator-free string gives the single field. -/
theorem splitCh_no_sep (c : Char) (s : List Char) (h : c ∉ s) :
    splitCh c s = [s] := by
  induction s with
  | nil => rfl
  | cons x xs ih =>
    have hx : ¬ x = c := fun he => h (he ▸ List.mem_cons_self x xs)
    have hxs : c ∉ xs := fun hm => h (List.mem_cons_of_mem _ hm)
    simp [splitCh, hx, ih hxs]

/-- Splitting distributes over a separator occurrence: the fields of
`a ++ c :: b` are the fields of `a` followed by the fields of `b`. -/
theorem splitCh_append (c : Char) (a b : List Char) :
    splitCh c (a ++ c :: b) = splitCh c a ++ splitCh c b := by
  induction a with
  | nil => simp [splitCh]
  | cons x xs ih =>
    by_cases hx : x = c
    · simp [splitCh, hx, ih]
    · simp only [List.cons_append, splitCh, if_neg hx, List.append_eq]
      rw [ih]
      cases h : splitCh c xs with
      | nil => exact absurd h (splitCh_ne_nil c xs)
      | cons hd tl => simp

/-- Joining a list whose head gained a character prepends it. -/
theorem joinCh_cons_cons (c x : Char) (h : List Char) (t : List (List Char)) :
    joinCh c ((x :: h) :: t) = x :: joinCh c (h :: t) := by
  cases t <;> simp [joinCh]

/-- `join` undoes `split`: `splitCh` then `joinCh` is the identity. -/
theorem joinCh_splitCh (c : Char) (s : List Char) :
    joinCh c (splitCh c s) = s := by
  induction s with
  | nil => rfl
  | cons x xs ih =>
    by_cases hx : x = c
    · subst hx
      simp only [splitCh, if_pos rfl]
      cases h : splitCh x xs with
      | nil => exact absurd h (splitCh_ne_nil x xs)
      | cons hd tl =>
        rw [h] at ih
        simpa [joinCh] using ih
    · simp only [splitCh, if_neg hx]
      cases h : splitCh c xs with
      | nil => exact absurd h (splitCh_ne_nil c xs)
      | cons hd tl =>
        rw [joinCh_cons_cons, ← h, ih]

/-- Indexing right after an appended block reads the second list's
head. -/
theorem getD_append_self {α : Type} (S l : List α) (d : α) :
    (S ++ l).getD S.length d = l.getD 0 d := by
  induction S with
  | nil => rfl
  | cons a as ih => simpa [List.getD] using ih

/-- Taking the length of an appended block returns exactly that block. -/
theorem take_append_self {α : Type} (S l : List α) :
    (S ++ l).take S.length = S := by
  induction S with
  | nil => rfl
  | cons a as ih => simp [ih]

/-- C6: legacy colon-delimited credentials are decoded by taking the last
three colon-separated fields as expiry, timestamp, and signature and
joining the remaining leading fields with colons as the subject, so a
subject containing colons is recovered intact (conjunct 1); an expired
credential decodes to `none` in both the colon and pipe formats
(conjuncts 2 and 3); and a structurally malformed credential — pipe
format without exactly 4 parts, colon format with fewer than 4 parts —
decodes to `none` rather than raising (conjuncts 4 and 5). -/
theorem credential_decode_subject :
    (∀ (subject e t sg : List Char) (now : Int),
      '|' ∉ subject → '|' ∉ e → '|' ∉ t → '|' ∉ sg →
      ':' ∉ e → ':' ∉ t → ':' ∉ sg →
      isExpired e now = false →
      decodeUserId (subject ++ ':' :: (e ++ ':' :: (t ++ ':' :: sg))) now =
        some subject)
    ∧ (∀ (subject e t sg : List Char) (now v : Int),
      '|' ∉ subject → '|' ∉ e → '|' ∉ t → '|' ∉ sg →
      ':' ∉ e → ':' ∉ t → ':' ∉ sg →
      parseIntJS e = some v → now > v →
      decodeUserId (subject ++ ':' :: (e ++ ':' :: (t ++ ':' :: sg))) now =
        none)
    ∧ (∀ (subject e t sg : List Char) (now v : Int),
      '|' ∉ subject → '|' ∉ e → '|' ∉ t → '|' ∉ sg →
      parseIntJS e = some v → now > v →
      decodeUserId (subject ++ '|' :: (e ++ '|' :: (t ++ '|' :: sg))) now =
        none)
    ∧ (∀ (s : List Char) (now : Int),
      '|' ∈ s → (splitCh '|' s).length ≠ 4 → decodeUserId s now = none)
    ∧ (∀ (s : List Char) (now : Int),
      '|' ∉ s → (splitCh ':' s).length < 4 → decodeUserId s now = none) := by
  have hnopipe : ∀ (subject e t sg : List Char),
      '|' ∉ subject → '|' ∉ e → '|' ∉ t → '|' ∉ sg →
      '|' ∉ (subject ++ ':' :: (e ++ ':' :: (t ++ ':' :: sg))) := by
    intro subject e t sg h1 h2 h3 h4 hm
    have hne : ('|' : Char) ≠ ':' := by decide
    rcases List.mem_append.mp hm with h | h
    · exact h1 h
    · rcases List.mem_cons.mp h with h | h
      · exact hne h
      · rcases List.mem_append.mp h with h | h
        · exact h2 h
        · rcases List.mem_cons.mp h with h | h
          · exact hne h
          · rcases List.mem_append.mp h with h | h
            · exact h3 h
            · rcases List.mem_cons.mp h with h | h
              · exact hne h
              · exact h4 h
  have hsplit : ∀ (subject e t sg : List Char),
      ':' ∉ e → ':' ∉ t → ':' ∉ sg →
      splitCh ':' (subject ++ ':' :: (e ++ ':' :: (t ++ ':' :: sg))) =
        splitCh ':' subject ++ [e, t, sg] := by
    intro subject e t sg h5 h6 h7
    rw [splitCh_append, splitCh_append, splitCh_append,
      splitCh_no_sep ':' e h5, splitCh_no_sep ':' t h6,
      splitCh_no_sep ':' sg h7]
    simp
  have hcolon : ∀ (subject e t sg : List Char) (now : Int),
      '|' ∉ subject → '|' ∉ e → '|' ∉ t → '|' ∉ sg →
      ':' ∉ e → ':' ∉ t → ':' ∉ sg →
      decodeUserId (subject ++ ':' :: (e ++ ':' :: (t ++ ':' :: sg))) now =
        if isExpired e now then none else some subject := by
    intro subject e t sg now h1 h2 h3 h4 h5 h6 h7
    have hmem := hnopipe subject e t sg h1 h2 h3 h4
    rw [decodeUserId, if_neg hmem]
    simp only [hsplit subject e t sg h5 h6 h7]
    have hpos : 0 < (splitCh ':' subject).length :=
      List.length_pos.mpr (splitCh_ne_nil ':' subject)
    have hlen : (splitCh ':' subject ++ [e, t, sg]).length =
        (splitCh ':' subject).length + 3 := by simp
    rw [hlen]
    rw [if_neg (by omega)]
    have h3sub : (splitCh ':' subject).length + 3 - 3 =
        (splitCh ':' subject).length := by omega
    rw [h3sub]
    have hgd : (splitCh ':' subject ++ [e, t, sg]).getD
        (splitCh ':' subject).length [] = e :=
      getD_append_self (splitCh ':' subject) [e, t, sg] []
    have htk : (splitCh ':' subject ++ [e, t, sg]).take
        (splitCh ':' subject).length = splitCh ':' subject :=
      take_append_self (splitCh ':' subject) [e, t, sg]
    rw [hgd, htk, joinCh_splitCh]
  refine ⟨?_, ?_, ?_, ?_, ?_⟩
  · intro subject e t sg now h1 h2 h3 h4 h5 h6 h7 hexp
    rw [hcolon subject e t sg now h1 h2 h3 h4 h5 h6 h7, if_neg (by simp [hexp])]
  · intro subject e t sg now v h1 h2 h3 h4 h5 h6 h7 hp hv
    have hexp : isExpired e now = true := by
      simp [isExpired, hp, hv]
    rw [hcolon subject e t sg now h1 h2 h3 h4 h5 h6 h7, if_pos hexp]
  · intro subject e t sg now v h1 h2 h3 h4 hp hv
    have hmem : '|' ∈ (subject ++ '|' :: (e ++ '|' :: (t ++ '|' :: sg))) := by
      exact List.mem_append.mpr (Or.inr (List.mem_cons_self _ _))
    rw [decodeUserId, if_pos hmem]
    rw [splitCh_append, splitCh_append, splitCh_append,
      splitCh_no_sep '|' subject h1, splitCh_no_sep '|' e h2,
      splitCh_no_sep '|' t h3, splitCh_no_sep '|' sg h4]
    have hexp : isExpired e now = true := by
      simp [isExpired, hp, hv]
    simp [hexp]
  · intro s now hin hlen
    rw [decodeUserId, if_pos hin]
    cases h0 : splitCh '|' s with
    | nil => rfl
    | cons a l1 =>
      cases l1 with
      | nil => rfl
      | cons b l2 =>
        cases l2 with
        | nil => rfl
        | cons c3 l3 =>
          cases l3 with
          | nil => rfl
          | cons d l4 =>
            cases l4 with
            | nil =>
              rw [h0] at hlen
              simp at hlen
            | cons x l5 => rfl
  · intro s now hnot hlen
    rw [decodeUserId, if_neg hnot]
    simp [hlen]

/-- Witness for C6: a legacy payload with a colon inside the subject
decodes to the full subject; an expired colon payload and an expired pipe
payload decode to `none`; a two-part pipe payload and a one-part colon
payload decode to `none`. -/
theorem credential_decode_subject_witness :
    decodeUserId
        (['u', ':', 'n'] ++ ':' :: (['9', '9'] ++ ':' :: (['1'] ++ ':' :: ['s'])))
        50 = some ['u', ':', 'n']
    ∧ decodeUserId
        (['u', ':', 'n'] ++ ':' :: (['9', '9'] ++ ':' :: (['1'] ++ ':' :: ['s'])))
        100 = none
    ∧ decodeUserId
        (['u', 's'] ++ '|' :: (['9', '9'] ++ '|' :: (['1'] ++ '|' :: ['s'])))
        100 = none
    ∧ decodeUserId ['a', '|', 'b'] 50 = none
    ∧ decodeUserId ['a', 'b'] 50 = none :=
  ⟨credential_decode_subject.1 ['u', ':', 'n'] ['9', '9'] ['1'] ['s'] 50
      (by decide) (by decide) (by decide) (by decide) (by decide) (by decide)
      (by decide) (by decide),
   credential_decode_subject.2.1 ['u', ':', 'n'] ['9', '9'] ['1'] ['s'] 100 99
      (by decide) (by decide) (by decide) (by decide) (by decide) (by decide)
      (by decide) (by decide) (by decide),
   credential_decode_subject.2.2.1 ['u', 's'] ['9', '9'] ['1'] ['s'] 100 99
      (by decide) (by decide) (by decide) (by decide) (by decide) (by decide),
   credential_decode_subject.2.2.2.1 ['a', '|', 'b'] 50 (by decide) (by decide),
   credential_decode_subject.2.2.2.2 ['a', 'b'] 50 (by decide) (by decide)⟩

end AiSpy
